import Mathlib

/-!
# Verification of the simple-ledger reconciliation and balance subsystem

Shallow embedding of the double-entry ledger core:

* data model: `Account`, `Posting` (one line of a transaction group);
* in-memory repositories (`TransactionRepository`, `AccountRepository`)
  modelled as lists with JS-`Map` insertion-order semantics (`savePosting`
  replaces the entry with the same line id, otherwise appends);
* `ComputeBalanceService`: `closed_balance` plus the fold of the balance
  rule over the account's unreconciled postings;
* `validateTransactionBalance`: the shared debits-equals-credits check;
* `CreateTransactionService.execute`: validate, check accounts, reject
  duplicate transaction ids, then persist the batch;
* `ReconciliationService.execute`: lock check, integrity check over all
  groups, mark all open groups reconciled, then per-account optimistic
  compare-and-swap snapshot updates with a bounded retry loop.

Machine integers are modelled as `Int` (all money values are integer
cents), timestamps as `Nat`, and thrown exceptions as `Except LedgerError`.
-/

namespace SimpleLedger

/-- Directional polarity of an account or posting. -/
inductive Direction where
  | debit
  | credit
deriving DecidableEq, Repr

/-- Account entity: direction is fixed at creation; `closed_balance` is the
last reconciled snapshot (cents); `version` is the optimistic-locking
counter. -/
structure Account where
  id : String
  direction : Direction
  closed_balance : Int
  version : Nat
deriving DecidableEq, Repr

/-- Posting (transaction line) entity: one leg of a double-entry
transaction group.  `reconciled_at = none` means open/unreconciled. -/
structure Posting where
  id : String
  account_id : String
  amount : Int
  direction : Direction
  transaction_id : String
  transaction_name : Option String
  created_at : Nat
  reconciled_at : Option Nat
deriving DecidableEq, Repr

/-- The posting store: values of the `Map<string, Transaction>` in
insertion order. -/
abbrev PostingStore := List Posting

/-- The account store: values of the `Map<string, Account>` in insertion
order. -/
abbrev AccountStore := List Account

/-- Error taxonomy of the core (thrown Nest exceptions, identified by
their construction site). -/
inductive LedgerError where
  | unbalancedTransaction (transactionId : Option String) (debits credits : Int)
  | accountNotFound (id : String)
  | duplicateTransactionId (id : String)
  | versionConflict (id : String)
  | tooManyRetries (id : String)
  | reconciliationInProgress
  | integrityViolation (transactionId : String) (debits credits : Int)
  | unexpectedState
deriving DecidableEq, Repr

/-! ## TransactionRepository -/

/-- `TransactionRepository.save`: `Map.set` keyed by line id — replaces an
existing entry with the same id in place, otherwise appends. -/
def savePosting (store : PostingStore) (p : Posting) : PostingStore :=
  if store.any (fun q => q.id = p.id) then
    store.map (fun q => if q.id = p.id then p else q)
  else
    store ++ [p]

/-- `TransactionRepository.findByTransactionId`. -/
def findByTransactionId (store : PostingStore) (transactionId : String) : List Posting :=
  store.filter (fun p => p.transaction_id = transactionId)

/-- `TransactionRepository.findByAccountId`. -/
def findByAccountId (store : PostingStore) (accountId : String) : List Posting :=
  store.filter (fun p => p.account_id = accountId)

/-- `TransactionRepository.findUnreconciledByAccountId`. -/
def findUnreconciledByAccountId (store : PostingStore) (accountId : String) : List Posting :=
  store.filter (fun p => p.account_id = accountId ∧ p.reconciled_at = none)

/-- `TransactionRepository.reconcileTransactionGroup`: set `reconciled_at`
on every line of the group. -/
def reconcileTransactionGroup (store : PostingStore) (transactionId : String)
    (reconciledAt : Nat) : PostingStore :=
  store.map (fun p =>
    if p.transaction_id = transactionId then { p with reconciled_at := some reconciledAt } else p)

/-- First-occurrence deduplication: `Array.from(new Set(xs))` keeps
insertion order. -/
def dedupFirst (xs : List String) : List String :=
  xs.foldl (fun acc x => if x ∈ acc then acc else acc ++ [x]) []

/-- `TransactionRepository.getAllTransactionIds`. -/
def getAllTransactionIds (store : PostingStore) : List String :=
  dedupFirst (store.map (fun p => p.transaction_id))

/-- `TransactionRepository.getUnreconciledTransactionIds`. -/
def getUnreconciledTransactionIds (store : PostingStore) : List String :=
  dedupFirst ((store.filter (fun p => p.reconciled_at = none)).map (fun p => p.transaction_id))

/-! ## AccountRepository -/

/-- `AccountRepository.findById` (`Map.get`). -/
def findAccountById (store : AccountStore) (id : String) : Option Account :=
  store.find? (fun a => a.id = id)

/-- `AccountRepository.updateClosedBalance`: optimistic compare-and-swap.
Fails with `NotFoundException` when the account is missing, with
`ConflictException` when the stored version differs from the expected one;
otherwise sets `closed_balance` and bumps `version` to `expected + 1`. -/
def updateClosedBalance (store : AccountStore) (id : String) (newClosedBalance : Int)
    (expectedVersion : Nat) : Except LedgerError AccountStore :=
  match findAccountById store id with
  | none => .error (.accountNotFound id)
  | some a =>
    if a.version ≠ expectedVersion then
      .error (.versionConflict id)
    else
      .ok (store.map (fun b =>
        if b.id = id then
          { b with closed_balance := newClosedBalance, version := expectedVersion + 1 }
        else b))

/-! ## ComputeBalanceService -/

/-- `ComputeBalanceService.applyTransactionToBalance`: same direction adds
the amount, differing direction subtracts it. -/
def applyTransactionToBalance (currentBalance : Int) (accountDirection : Direction)
    (transaction : Posting) : Int :=
  if accountDirection = transaction.direction then
    currentBalance + transaction.amount
  else
    currentBalance - transaction.amount

/-- `ComputeBalanceService.execute`: fold the balance rule over the
account's unreconciled postings, starting from `closed_balance`. -/
def computeBalance (store : PostingStore) (account : Account) : Int :=
  (findUnreconciledByAccountId store account.id).foldl
    (fun balance p => applyTransactionToBalance balance account.direction p)
    account.closed_balance

/-! ## Shared balance validation -/

/-- Totals returned by `validateTransactionBalance`. -/
structure BalanceTotals where
  debits : Int
  credits : Int
deriving DecidableEq, Repr

/-- One proposed entry of a new transaction (resolved DTO line: ids already
chosen, amounts in cents). -/
structure EntryDto where
  id : String
  account_id : String
  amount : Int
  direction : Direction
deriving DecidableEq, Repr

/-- The reduce inside `validateTransactionBalance`. -/
def computeTotals (entries : List EntryDto) : BalanceTotals :=
  entries.foldl
    (fun acc e =>
      if e.direction = .debit then { acc with debits := acc.debits + e.amount }
      else { acc with credits := acc.credits + e.amount })
    ⟨0, 0⟩

/-- `validateTransactionBalance`: throws `BadRequestException` when total
debits differ from total credits, otherwise returns the totals. -/
def validateTransactionBalance (entries : List EntryDto) (transactionId : Option String) :
    Except LedgerError BalanceTotals :=
  let totals := computeTotals entries
  if totals.debits ≠ totals.credits then
    .error (.unbalancedTransaction transactionId totals.debits totals.credits)
  else
    .ok totals

/-! ## CreateTransactionService -/

/-- Resolved create-transaction request: `id` is the caller-supplied or
generated transaction id, entry ids likewise already resolved. -/
structure TransactionDto where
  id : String
  name : Option String
  entries : List EntryDto
deriving DecidableEq, Repr

/-- One entry of the creation response (internal fields excluded). -/
structure ResponseEntry where
  id : String
  account_id : String
  amount : Int
  direction : Direction
deriving DecidableEq, Repr

/-- `CreateTransactionService.execute` response shape. -/
structure TransactionResponse where
  id : String
  name : Option String
  entries : List ResponseEntry
deriving DecidableEq, Repr

/-- The `forEach`/`findByIdOrFail` account-existence pass: the first entry
whose account is missing determines the thrown `NotFoundException`. -/
def firstMissingAccount (accounts : AccountStore) (entries : List EntryDto) : Option String :=
  entries.findSome? (fun e =>
    match findAccountById accounts e.account_id with
    | none => some e.account_id
    | some _ => none)

/-- Full mutable state of the core between operations. -/
structure LedgerState where
  accounts : AccountStore
  postings : PostingStore
  lock : Bool
deriving DecidableEq, Repr

/-- The build phase of `CreateTransactionService.execute`: one posting per
entry, sharing the group metadata, all open. -/
def buildLines (dto : TransactionDto) (now : Nat) : List Posting :=
  dto.entries.map (fun e =>
    { id := e.id
      account_id := e.account_id
      amount := e.amount
      direction := e.direction
      transaction_id := dto.id
      transaction_name := dto.name
      created_at := now
      reconciled_at := none })

/-- `CreateTransactionService.execute` (variant with the idempotency
check): validate balance, check all accounts exist, reject a duplicate
transaction id, build the lines, save them atomically.  Returns the thrown
error or the response, together with the post-call state. -/
def createTransaction (s : LedgerState) (dto : TransactionDto) (now : Nat) :
    Except LedgerError TransactionResponse × LedgerState :=
  match validateTransactionBalance dto.entries none with
  | .error e => (.error e, s)
  | .ok _ =>
    match firstMissingAccount s.accounts dto.entries with
    | some missing => (.error (.accountNotFound missing), s)
    | none =>
      if findByTransactionId s.postings dto.id ≠ [] then
        (.error (.duplicateTransactionId dto.id), s)
      else
        let lines : List Posting := buildLines dto now
        let saved := lines.foldl savePosting s.postings
        (.ok { id := dto.id
               name := dto.name
               entries := lines.map (fun l =>
                 { id := l.id, account_id := l.account_id
                   amount := l.amount, direction := l.direction }) },
         { s with postings := saved })

/-! ## GetAccountService -/

/-- `GetAccountService.execute` projected to the balance: fetch the account
or fail, then compute the current balance. -/
def getAccountBalance (s : LedgerState) (id : String) : Except LedgerError Int :=
  match findAccountById s.accounts id with
  | none => .error (.accountNotFound id)
  | some a => .ok (computeBalance s.postings a)

/-! ## ReconciliationService -/

/-- `MAX_RETRIES`: maximum retries per account on version conflict. -/
def MAX_RETRIES : Nat := 10

/-- Per-account summary recorded on a successful snapshot update. -/
structure AccountReconciliationSummary where
  account_id : String
  previous_closed_balance : Int
  new_closed_balance : Int
  transactions_included : Nat
  version : Nat
  retries : Nat
deriving DecidableEq, Repr

/-- `ReconciliationService.execute` result summary. -/
structure ReconciliationResult where
  reconciled_at : Nat
  total_accounts_reconciled : Nat
  total_transaction_groups_reconciled : Nat
  integrity_check_passed : Bool
  accounts : List AccountReconciliationSummary
  total_retries : Nat
deriving DecidableEq, Repr

/-- The per-group sums inside `verifyTransactionIntegrity`:
`(totalDebits, totalCredits)` accumulated over the group's lines. -/
def groupTotals (store : PostingStore) (transactionId : String) : Int × Int :=
  (findByTransactionId store transactionId).foldl
    (fun acc p =>
      if p.direction = .debit then (acc.1 + p.amount, acc.2) else (acc.1, acc.2 + p.amount))
    (0, 0)

/-- `ReconciliationService.verifyTransactionIntegrity`: scan every distinct
transaction id and report the first group whose debits differ from its
credits (`none` = check passed). -/
def verifyTransactionIntegrity (store : PostingStore) : Option (String × Int × Int) :=
  (getAllTransactionIds store).findSome? (fun transactionId =>
    let totals := groupTotals store transactionId
    if totals.1 ≠ totals.2 then some (transactionId, totals.1, totals.2) else none)

/-- `ReconciliationService.getAllAccountIdsWithTransactions`. -/
def getAllAccountIdsWithTransactions (store : PostingStore) : List String :=
  dedupFirst (store.map (fun p => p.account_id))

/-- `ReconciliationService.updateAccountWithRetry` in the sequential
semantics: fetch the account, compute the new balance against the marked
store, count the remaining unreconciled lines, then compare-and-swap.  A
`versionConflict` increments the retry counter and loops (bounded by
`MAX_RETRIES`); other errors propagate.  `fuel` bounds the recursion
(`MAX_RETRIES + 1` attempts from a zero counter); exhausting it is the
function's unreachable trailing `throw`. -/
def updateAccountWithRetrySeq (accounts : AccountStore) (postings : PostingStore)
    (accountId : String) : Nat → Nat → Except LedgerError (AccountStore × AccountReconciliationSummary)
  | _, 0 => .error .unexpectedState
  | retries, fuel + 1 =>
    match findAccountById accounts accountId with
    | none => .error (.accountNotFound accountId)
    | some account =>
      let previousBalance := account.closed_balance
      let currentVersion := account.version
      let newBalance := computeBalance postings account
      let unreconciledCount :=
        ((findByAccountId postings accountId).filter (fun t => t.reconciled_at = none)).length
      match updateClosedBalance accounts accountId newBalance currentVersion with
      | .ok updated =>
        .ok (updated,
          { account_id := accountId
            previous_closed_balance := previousBalance
            new_closed_balance := newBalance
            transactions_included := unreconciledCount
            version := currentVersion + 1
            retries := retries })
      | .error (.versionConflict _) =>
        if retries + 1 > MAX_RETRIES then .error (.tooManyRetries accountId)
        else updateAccountWithRetrySeq accounts postings accountId (retries + 1) fuel
      | .error e => .error e

/-- `ReconciliationService.updateAccountClosedBalances`: update every
account in turn; a per-account failure is caught, logged and skipped, the
successes are collected in order. -/
def updateAccountClosedBalancesSeq (postings : PostingStore) :
    List String → AccountStore → AccountStore × List AccountReconciliationSummary
  | [], accounts => (accounts, [])
  | accountId :: rest, accounts =>
    match updateAccountWithRetrySeq accounts postings accountId 0 (MAX_RETRIES + 1) with
    | .ok (updated, summary) =>
      let (finalAccounts, summaries) := updateAccountClosedBalancesSeq postings rest updated
      (finalAccounts, summary :: summaries)
    | .error _ => updateAccountClosedBalancesSeq postings rest accounts

/-- `ReconciliationService.execute` (`reconcileAll`): fail fast when the
lock is held; verify integrity of every group; mark every open group with
the run timestamp; update each affected account's snapshot; always release
the lock.  Returns the thrown error or the summary, with the post-call
state. -/
def reconcileAll (s : LedgerState) (now : Nat) :
    Except LedgerError ReconciliationResult × LedgerState :=
  if s.lock then
    (.error .reconciliationInProgress, s)
  else
    match verifyTransactionIntegrity s.postings with
    | some (transactionId, debits, credits) =>
      (.error (.integrityViolation transactionId debits credits), { s with lock := false })
    | none =>
      let unreconciledTransactionIds := getUnreconciledTransactionIds s.postings
      let marked := unreconciledTransactionIds.foldl
        (fun ps transactionId => reconcileTransactionGroup ps transactionId now) s.postings
      let accountIds := getAllAccountIdsWithTransactions marked
      let (finalAccounts, summaries) := updateAccountClosedBalancesSeq marked accountIds s.accounts
      (.ok { reconciled_at := now
             total_accounts_reconciled := summaries.length
             total_transaction_groups_reconciled := unreconciledTransactionIds.length
             integrity_check_passed := true
             accounts := summaries
             total_retries := summaries.foldl (fun acc t => acc + t.retries) 0 },
       { accounts := finalAccounts, postings := marked, lock := false })

/-! ## Retry loop under interference (for the bounded-backoff analysis)

The version conflict in `updateAccountWithRetry` is caused by concurrent
writers between the read and the compare-and-swap.  The loop itself is
modelled here with the conflict outcome of each attempt abstracted into an
oracle (`conflictAt retries = true` means the attempt made with that retry
counter hits `VersionConflict`); the loop structure, counter arithmetic,
bound and backoff delays are the source's. -/

/-- The exponential backoff delay slept before the `r`-th retry
(`Math.min(100 * Math.pow(2, retries - 1), 1000)`), in milliseconds. -/
def backoffDelay (r : Nat) : Nat :=
  min (100 * 2 ^ (r - 1)) 1000

/-- One run of the `while (retries <= MAX_RETRIES)` loop of
`updateAccountWithRetry` against a conflict oracle.  Returns the outcome
(`ok` with the final retry counter, or the error thrown) paired with the
list of backoff delays slept, in order.  `fuel` bounds the recursion;
exhausting it is the unreachable trailing `throw`. -/
def retryLoop (conflictAt : Nat → Bool) (accountId : String) :
    Nat → Nat → Except LedgerError Nat × List Nat
  | _, 0 => (.error .unexpectedState, [])
  | retries, fuel + 1 =>
    if conflictAt retries then
      if retries + 1 > MAX_RETRIES then (.error (.tooManyRetries accountId), [])
      else
        let delay := backoffDelay (retries + 1)
        let (result, delays) := retryLoop conflictAt accountId (retries + 1) fuel
        (result, delay :: delays)
    else (.ok retries, [])

/-- `updateAccountWithRetry` loop entry: retry counter 0, enough fuel for
the `MAX_RETRIES + 1` attempts the guard admits. -/
def updateAccountWithRetryOracle (conflictAt : Nat → Bool) (accountId : String) :
    Except LedgerError Nat × List Nat :=
  retryLoop conflictAt accountId 0 (MAX_RETRIES + 1)

/-- The `for`/`try`/`catch` skeleton of `updateAccountClosedBalances`: a
failing account is caught and skipped, successes are collected in order. -/
def collectAccountSummaries {α : Type} (update : String → Except LedgerError α) :
    List String → List α
  | [] => []
  | accountId :: rest =>
    match update accountId with
    | .ok summary => summary :: collectAccountSummaries update rest
    | .error _ => collectAccountSummaries update rest

/-! ## Public operations and reachability -/

/-- A public operation of the core with its nondeterministic inputs
resolved (ids, timestamps). -/
inductive Op where
  | create (dto : TransactionDto) (now : Nat)
  | getBalance (id : String)
  | reconcile (now : Nat)

/-- The state transition of one public operation (the post-call state,
whether or not the call threw). -/
def applyOp (s : LedgerState) : Op → LedgerState
  | .create dto now => (createTransaction s dto now).2
  | .getBalance _ => s
  | .reconcile now => (reconcileAll s now).2

/-- States reachable through the public operations from an initial state
with any set of created accounts and no postings. -/
inductive Reachable : LedgerState → Prop
  | start (accounts : AccountStore) : Reachable ⟨accounts, [], false⟩
  | step (s : LedgerState) (op : Op) : Reachable s → Reachable (applyOp s op)

/-- Lookup of a posting by line id (the store's `Map.get`). -/
def lookupPosting (store : PostingStore) (id : String) : Option Posting :=
  store.find? (fun p => p.id = id)

/-- Decidable equality of `Except` results, so concrete runs can be checked
by `decide`. -/
instance {ε α : Type} [DecidableEq ε] [DecidableEq α] : DecidableEq (Except ε α) := fun x y =>
  match x, y with
  | .error e, .error f => if h : e = f then .isTrue (by simp [h]) else .isFalse (by simp [h])
  | .error _, .ok _ => .isFalse (by simp)
  | .ok _, .error _ => .isFalse (by simp)
  | .ok a, .ok b => if h : a = b then .isTrue (by simp [h]) else .isFalse (by simp [h])

/-! ## Concrete scenarios -/

/-- Debit account with zero snapshot, for the reconciliation-invariant
scenario. -/
def acctDebitC : Account := ⟨"C", .debit, 0, 0⟩

/-- Credit account with zero snapshot. -/
def acctCreditD : Account := ⟨"D", .credit, 0, 0⟩

/-- A balanced group: C debit 500, D credit 500. -/
def c1Dto : TransactionDto :=
  ⟨"g", none, [⟨"P1", "C", 500, .debit⟩, ⟨"P2", "D", 500, .credit⟩]⟩

/-- State with the single open group posted. -/
def c1Open : LedgerState :=
  (createTransaction ⟨[acctDebitC, acctCreditD], [], false⟩ c1Dto 1).2

/-- The reconciliation run on that state. -/
def c1Run : Except LedgerError ReconciliationResult × LedgerState :=
  reconcileAll c1Open 7

/-- Debit account A with `closed_balance = 1000`, `version = 0`, for the
end-to-end snapshot scenario. -/
def acctA1000 : Account := ⟨"A", .debit, 1000, 0⟩

/-- Credit counterparty account for the snapshot scenario. -/
def acctB0 : Account := ⟨"B", .credit, 0, 0⟩

/-- Initial state of the snapshot scenario. -/
def c2Start : LedgerState := ⟨[acctA1000, acctB0], [], false⟩

/-- First group: A debit 300, B credit 300. -/
def c2G1 : TransactionDto :=
  ⟨"g1", none, [⟨"L1", "A", 300, .debit⟩, ⟨"L2", "B", 300, .credit⟩]⟩

/-- Second group: A debit 200, B credit 200 (the two groups net +500 to A). -/
def c2G2 : TransactionDto :=
  ⟨"g2", none, [⟨"L3", "A", 200, .debit⟩, ⟨"L4", "B", 200, .credit⟩]⟩

/-- State with both groups posted. -/
def c2Posted : LedgerState :=
  (createTransaction (createTransaction c2Start c2G1 1).2 c2G2 2).2

/-- The reconciliation run of the snapshot scenario. -/
def c2Run : Except LedgerError ReconciliationResult × LedgerState :=
  reconcileAll c2Posted 5

/-- A store already holding a group `t1`, plus its account. -/
def c5State : LedgerState :=
  ⟨[⟨"A", .debit, 0, 0⟩], [⟨"Q1", "A", 100, .debit, "t1", none, 0, none⟩], false⟩

/-- A creation request reusing transaction id `t1` whose entries are also
unbalanced (debit 100, credit 0). -/
def c5Dto : TransactionDto := ⟨"t1", none, [⟨"X", "A", 100, .debit⟩]⟩

/-! ## Claims -/

/-- Claim C9: the balance rule returns `balance + amount` when the account
direction equals the posting direction and `balance - amount` otherwise;
it is pure integer arithmetic with no error case (a total function on
`Int`). -/
theorem applyTransactionToBalance_rule (b : Int) (d : Direction) (t : Posting) :
    (d = t.direction → applyTransactionToBalance b d t = b + t.amount) ∧
    (d ≠ t.direction → applyTransactionToBalance b d t = b - t.amount) := by
  constructor <;> intro h <;> simp [applyTransactionToBalance, h]

/-- Witness for C9 at concrete matching and differing directions. -/
theorem applyTransactionToBalance_rule_witness :
    applyTransactionToBalance 5 .debit ⟨"p", "a", 3, .debit, "t", none, 0, none⟩ = 8 ∧
    applyTransactionToBalance 5 .credit ⟨"p", "a", 3, .debit, "t", none, 0, none⟩ = 2 :=
  ⟨(applyTransactionToBalance_rule 5 .debit ⟨"p", "a", 3, .debit, "t", none, 0, none⟩).1 rfl,
   (applyTransactionToBalance_rule 5 .credit ⟨"p", "a", 3, .debit, "t", none, 0, none⟩).2
     (by decide)⟩

/-- Claim C4: the closed-balance update is a compare-and-swap.  When the
stored version equals the expected one it sets `closed_balance` to the new
balance and `version` to exactly `expected + 1`, touching no other
account; when the versions differ it fails with `VersionConflict` and
produces no updated store. -/
theorem updateClosedBalance_cas_spec (store : AccountStore) (id : String) (newBal : Int)
    (v : Nat) (a : Account) (h : findAccountById store id = some a) :
    (a.version = v →
      updateClosedBalance store id newBal v =
        .ok (store.map (fun b =>
          if b.id = id then { b with closed_balance := newBal, version := v + 1 } else b))) ∧
    (a.version ≠ v → updateClosedBalance store id newBal v = .error (.versionConflict id)) := by
  constructor <;> intro hv <;> simp [updateClosedBalance, h, hv]

/-- Witness for C4: a matching version succeeds and bumps the version to 1,
a stale expected version fails with `VersionConflict`. -/
theorem updateClosedBalance_cas_spec_witness :
    updateClosedBalance [⟨"A", .debit, 0, 0⟩] "A" 7 0 = .ok [⟨"A", .debit, 7, 1⟩] ∧
    updateClosedBalance [⟨"A", .debit, 0, 0⟩] "A" 7 5 = .error (.versionConflict "A") :=
  ⟨by exact (updateClosedBalance_cas_spec [⟨"A", .debit, 0, 0⟩] "A" 7 0 ⟨"A", .debit, 0, 0⟩
      rfl).1 rfl,
   (updateClosedBalance_cas_spec [⟨"A", .debit, 0, 0⟩] "A" 7 5 ⟨"A", .debit, 0, 0⟩
      rfl).2 (by decide)⟩

/-- Claim C6: a creation call that fails validation (unbalanced entries or
a missing account) leaves the posting store and the whole state exactly as
before the call. -/
theorem createTransaction_validation_failure_preserves_store (s : LedgerState)
    (dto : TransactionDto) (now : Nat) :
    (∀ txId d c, (createTransaction s dto now).1 = .error (.unbalancedTransaction txId d c) →
      (createTransaction s dto now).2 = s) ∧
    (∀ aid, (createTransaction s dto now).1 = .error (.accountNotFound aid) →
      (createTransaction s dto now).2 = s) := by
  unfold createTransaction
  cases hv : validateTransactionBalance dto.entries none with
  | error e => simp
  | ok t =>
    cases hm : firstMissingAccount s.accounts dto.entries with
    | some m => simp
    | none =>
      by_cases hd : findByTransactionId s.postings dto.id = [] <;> simp [hd]

/-- Witness for C6: an unbalanced request and a request naming a missing
account both leave the concrete state untouched. -/
theorem createTransaction_validation_failure_preserves_store_witness :
    (createTransaction c5State ⟨"t2", none, [⟨"X", "A", 100, .debit⟩]⟩ 3).2 = c5State ∧
    (createTransaction c5State
      ⟨"t2", none, [⟨"X", "Z", 100, .debit⟩, ⟨"Y", "A", 100, .credit⟩]⟩ 3).2 = c5State :=
  ⟨(createTransaction_validation_failure_preserves_store c5State
      ⟨"t2", none, [⟨"X", "A", 100, .debit⟩]⟩ 3).1 none 100 0 (by decide),
   (createTransaction_validation_failure_preserves_store c5State
      ⟨"t2", none, [⟨"X", "Z", 100, .debit⟩, ⟨"Y", "A", 100, .credit⟩]⟩ 3).2 "Z" (by decide)⟩

/-- Claim C10: the shared balance check accepts the empty entry list with
totals `{debits: 0, credits: 0}`, so creating a transaction with no
entries and a non-colliding id succeeds, returns a response with zero
entries, and persists nothing. -/
theorem empty_transaction_succeeds (s : LedgerState) (dto : TransactionDto) (now : Nat)
    (hentries : dto.entries = []) (hfresh : findByTransactionId s.postings dto.id = []) :
    validateTransactionBalance [] none = .ok ⟨0, 0⟩ ∧
    createTransaction s dto now = (.ok ⟨dto.id, dto.name, []⟩, s) := by
  obtain ⟨i, n, es⟩ := dto
  simp only at hentries
  subst hentries
  refine ⟨rfl, ?_⟩
  simp only at hfresh
  simp [createTransaction, validateTransactionBalance, computeTotals, firstMissingAccount,
    buildLines, hfresh]

/-- Witness for C10: the empty creation on a concrete fresh state. -/
theorem empty_transaction_succeeds_witness :
    validateTransactionBalance [] none = .ok ⟨0, 0⟩ ∧
    createTransaction c2Start ⟨"e", none, []⟩ 1 = (.ok ⟨"e", none, []⟩, c2Start) :=
  ⟨(empty_transaction_succeeds c2Start ⟨"e", none, []⟩ 1 rfl rfl).1,
   (empty_transaction_succeeds c2Start ⟨"e", none, []⟩ 1 rfl rfl).2⟩

/-- Claim C5 counterexample: a creation call whose transaction id collides
with the stored group `t1` but whose entries are unbalanced fails with
`UnbalancedTransaction`, not `DuplicateTransactionId` — the claim's
unconditional error code is wrong because the balance check runs first. -/
theorem duplicate_id_unbalanced_takes_precedence :
    findByTransactionId c5State.postings "t1" ≠ [] ∧
    (createTransaction c5State c5Dto 3).1 = .error (.unbalancedTransaction none 100 0) ∧
    (createTransaction c5State c5Dto 3).1 ≠ .error (.duplicateTransactionId "t1") := by
  decide

/-- Claim C5 (amended): a creation call whose transaction id collides with
an existing group always fails and persists nothing; the error is
`DuplicateTransactionId` when the balance and account-existence
validations pass (an earlier validation failure takes precedence). -/
theorem duplicate_transaction_id_rejected (s : LedgerState) (dto : TransactionDto) (now : Nat)
    (hdup : findByTransactionId s.postings dto.id ≠ []) :
    ((∃ e, (createTransaction s dto now).1 = .error e) ∧ (createTransaction s dto now).2 = s) ∧
    ((computeTotals dto.entries).debits = (computeTotals dto.entries).credits →
      firstMissingAccount s.accounts dto.entries = none →
      (createTransaction s dto now).1 = .error (.duplicateTransactionId dto.id)) := by
  unfold createTransaction
  cases hv : validateTransactionBalance dto.entries none with
  | error e =>
    refine ⟨⟨⟨e, rfl⟩, rfl⟩, fun hbal _ => ?_⟩
    unfold validateTransactionBalance at hv
    simp [hbal] at hv
  | ok t =>
    have hbal' : ¬ (computeTotals dto.entries).debits ≠ (computeTotals dto.entries).credits := by
      intro hne
      unfold validateTransactionBalance at hv
      simp [hne] at hv
    cases hm : firstMissingAccount s.accounts dto.entries with
    | some m => exact ⟨⟨⟨.accountNotFound m, rfl⟩, rfl⟩, fun _ hnone => by simp [hm] at hnone⟩
    | none => exact ⟨⟨⟨.duplicateTransactionId dto.id, by simp [hdup]⟩, by simp [hdup]⟩,
        fun _ _ => by simp [hdup]⟩

/-- Witness for C5 (amended): a balanced, account-valid request reusing the
stored transaction id `t1` fails with `DuplicateTransactionId` and leaves
the state unchanged. -/
theorem duplicate_transaction_id_rejected_witness :
    ((∃ e, (createTransaction c5State
        ⟨"t1", none, [⟨"X", "A", 100, .debit⟩, ⟨"Y", "A", 100, .credit⟩]⟩ 3).1 = .error e) ∧
      (createTransaction c5State
        ⟨"t1", none, [⟨"X", "A", 100, .debit⟩, ⟨"Y", "A", 100, .credit⟩]⟩ 3).2 = c5State) ∧
    (createTransaction c5State
        ⟨"t1", none, [⟨"X", "A", 100, .debit⟩, ⟨"Y", "A", 100, .credit⟩]⟩ 3).1 =
      .error (.duplicateTransactionId "t1") :=
  ⟨(duplicate_transaction_id_rejected c5State
      ⟨"t1", none, [⟨"X", "A", 100, .debit⟩, ⟨"Y", "A", 100, .credit⟩]⟩ 3 (by decide)).1,
   (duplicate_transaction_id_rejected c5State
      ⟨"t1", none, [⟨"X", "A", 100, .debit⟩, ⟨"Y", "A", 100, .credit⟩]⟩ 3 (by decide)).2
     (by decide) (by decide)⟩

/-- Claim C1 (code evaluation at the failing input): the computed balance
of account C is 500 before a successful reconciliation run and 0 after it
— reconciliation does not preserve observable balances, because the run
marks all open groups reconciled before computing the snapshot, so the
snapshot is advanced to the stale `closed_balance` instead of the folded
balance. -/
theorem reconcileAll_changes_computed_balance_concrete :
    ((findAccountById c1Open.accounts "C").map (fun a => computeBalance c1Open.postings a) =
      some 500) ∧
    c1Run.1.isOk = true ∧
    ((findAccountById c1Run.2.accounts "C").map (fun a => computeBalance c1Run.2.postings a) =
      some 0) := by
  decide

/-- Claim C2 (code evaluation at the failing input): account A starts at
`closed_balance = 1000, version = 0`; two balanced groups net +500 to A;
after `reconcileAll()` the code returns `getAccountBalance(A) = 1000`
(the claim expects 1500), stored `closed_balance = 1000` (claim: 1500),
`version = 1` (as claimed), and every posting is marked reconciled (as
claimed). -/
theorem snapshot_scenario_concrete_run :
    (createTransaction c2Start c2G1 1).1.isOk = true ∧
    (createTransaction (createTransaction c2Start c2G1 1).2 c2G2 2).1.isOk = true ∧
    getAccountBalance c2Posted "A" = .ok 1500 ∧
    c2Run.1.isOk = true ∧
    getAccountBalance c2Run.2 "A" = .ok 1000 ∧
    getAccountBalance c2Run.2 "A" ≠ .ok 1500 ∧
    findAccountById c2Run.2.accounts "A" = some ⟨"A", .debit, 1000, 1⟩ ∧
    c2Run.2.postings.all (fun p => p.reconciled_at.isSome) = true ∧
    c2Run.2.postings.length = 4 := by
  decide

/-- A state holding a manually constructed unbalanced group `t9`
(debit 1000, credit 500), bypassing creation validation. -/
def c3Bad : LedgerState :=
  ⟨[⟨"A", .debit, 0, 0⟩],
   [⟨"R1", "A", 1000, .debit, "t9", none, 0, none⟩,
    ⟨"R2", "A", 500, .credit, "t9", none, 0, none⟩], false⟩

/-- The integrity scan reports some failure whenever some group in the
store has differing totals. -/
theorem verifyTransactionIntegrity_ne_none (ps : PostingStore)
    (hbad : ∃ txId ∈ getAllTransactionIds ps,
      (groupTotals ps txId).1 ≠ (groupTotals ps txId).2) :
    verifyTransactionIntegrity ps ≠ none := by
  intro hnone
  unfold verifyTransactionIntegrity at hnone
  rw [List.findSome?_eq_none_iff] at hnone
  obtain ⟨t, ht, hne⟩ := hbad
  have := hnone t ht
  simp [hne] at this

/-- Claim C3: when any group in the store is unbalanced, a reconciliation
run (entered with the lock free) fails with `IntegrityViolation`, changes
no posting and no account, and leaves the lock released, so any
immediately subsequent run reaches the integrity check again instead of
failing with `ReconciliationInProgress`. -/
theorem reconcileAll_integrity_failure_atomic (s : LedgerState) (now : Nat)
    (hlock : s.lock = false)
    (hbad : ∃ txId ∈ getAllTransactionIds s.postings,
      (groupTotals s.postings txId).1 ≠ (groupTotals s.postings txId).2) :
    (∃ txId d c, reconcileAll s now = (.error (.integrityViolation txId d c), s)) ∧
    (∀ later, ∃ txId d c,
      reconcileAll (reconcileAll s now).2 later =
        (.error (.integrityViolation txId d c), (reconcileAll s now).2)) := by
  have hne := verifyTransactionIntegrity_ne_none s.postings hbad
  obtain ⟨⟨t, d, c⟩, hsome⟩ := Option.ne_none_iff_exists'.mp hne
  have heta : ({ s with lock := false } : LedgerState) = s := by
    cases s
    simp only at hlock
    subst hlock
    rfl
  have hrun : reconcileAll s now = (.error (.integrityViolation t d c), s) := by
    unfold reconcileAll
    rw [hlock, hsome]
    simp [heta]
  refine ⟨⟨t, d, c, hrun⟩, fun later => ⟨t, d, c, ?_⟩⟩
  rw [hrun]
  unfold reconcileAll
  rw [hlock, hsome]
  simp [heta]

/-- Witness for C3: the unbalanced group `t9` makes the run fail with
`IntegrityViolation` while leaving the state untouched, and a second call
fails the same way rather than with `ReconciliationInProgress`. -/
theorem reconcileAll_integrity_failure_atomic_witness :
    reconcileAll c3Bad 4 = (.error (.integrityViolation "t9" 1000 500), c3Bad) ∧
    reconcileAll (reconcileAll c3Bad 4).2 6 =
      (.error (.integrityViolation "t9" 1000 500), (reconcileAll c3Bad 4).2) := by
  have h := reconcileAll_integrity_failure_atomic c3Bad 4 rfl ⟨"t9", by decide, by decide⟩
  exact ⟨by decide, by decide⟩

/-- Unfolding: a conflicting attempt below the bound sleeps one backoff
delay and continues with the incremented counter. -/
theorem retryLoop_conflict_cont (conflictAt : Nat → Bool) (accountId : String)
    (retries fuel : Nat) (hc : conflictAt retries = true)
    (hb : ¬ retries + 1 > MAX_RETRIES) :
    retryLoop conflictAt accountId retries (fuel + 1) =
      ((retryLoop conflictAt accountId (retries + 1) fuel).1,
       backoffDelay (retries + 1) :: (retryLoop conflictAt accountId (retries + 1) fuel).2) := by
  simp only [retryLoop, hc, if_true]
  rw [if_neg hb]

/-- Unfolding: a conflicting attempt that pushes the counter past the
bound throws `TooManyRetries`. -/
theorem retryLoop_conflict_stop (conflictAt : Nat → Bool) (accountId : String)
    (retries fuel : Nat) (hc : conflictAt retries = true)
    (hb : retries + 1 > MAX_RETRIES) :
    retryLoop conflictAt accountId retries (fuel + 1) =
      (.error (.tooManyRetries accountId), []) := by
  simp only [retryLoop, hc, if_true]
  rw [if_pos hb]

/-- Unfolding: a non-conflicting attempt succeeds with the current
counter. -/
theorem retryLoop_no_conflict (conflictAt : Nat → Bool) (accountId : String)
    (retries fuel : Nat) (hc : conflictAt retries = false) :
    retryLoop conflictAt accountId retries (fuel + 1) = (.ok retries, []) := by
  simp [retryLoop, hc]

/-- The retry loop sleeps at most `MAX_RETRIES - retries` more times when
entered with the given counter. -/
theorem retryLoop_delays_length (conflictAt : Nat → Bool) (accountId : String) :
    ∀ fuel retries,
      (retryLoop conflictAt accountId retries fuel).2.length ≤ MAX_RETRIES - retries := by
  intro fuel
  induction fuel with
  | zero => intro retries; simp [retryLoop]
  | succ fuel ih =>
    intro retries
    by_cases hc : conflictAt retries
    · by_cases hb : retries + 1 > MAX_RETRIES
      · simp [retryLoop_conflict_stop conflictAt accountId retries fuel hc hb]
      · rw [retryLoop_conflict_cont conflictAt accountId retries fuel hc hb]
        have := ih (retries + 1)
        simp only [List.length_cons]
        omega
    · simp [retryLoop_no_conflict conflictAt accountId retries fuel (by simpa using hc)]

/-- The `k`-th backoff delay slept by the retry loop is
`backoffDelay (retries + 1 + k)`. -/
theorem retryLoop_delays_get (conflictAt : Nat → Bool) (accountId : String) :
    ∀ fuel retries k, k < (retryLoop conflictAt accountId retries fuel).2.length →
      (retryLoop conflictAt accountId retries fuel).2.getD k 0 =
        backoffDelay (retries + 1 + k) := by
  intro fuel
  induction fuel with
  | zero => intro retries k hk; simp [retryLoop] at hk
  | succ fuel ih =>
    intro retries k hk
    by_cases hc : conflictAt retries
    · by_cases hb : retries + 1 > MAX_RETRIES
      · rw [retryLoop_conflict_stop conflictAt accountId retries fuel hc hb] at hk
        simp at hk
      · rw [retryLoop_conflict_cont conflictAt accountId retries fuel hc hb] at hk ⊢
        match k with
        | 0 => simp
        | k + 1 =>
          simp only [List.length_cons, Nat.add_lt_add_iff_right] at hk
          have := ih (retries + 1) k hk
          simp only [List.getD_cons_succ, this]
          congr 1
          omega
    · rw [retryLoop_no_conflict conflictAt accountId retries fuel (by simpa using hc)] at hk
      simp at hk
/-- When every attempt the bound admits hits a conflict, the loop throws
`TooManyRetries` after sleeping the full backoff schedule. -/
theorem retryLoop_all_conflict (conflictAt : Nat → Bool) (accountId : String)
    (h : ∀ r, r ≤ MAX_RETRIES → conflictAt r = true) :
    ∀ fuel retries, retries ≤ MAX_RETRIES → retries + fuel = MAX_RETRIES + 1 →
      retryLoop conflictAt accountId retries fuel =
        (.error (.tooManyRetries accountId),
         (List.range (MAX_RETRIES - retries)).map (fun k => backoffDelay (retries + 1 + k))) := by
  intro fuel
  induction fuel with
  | zero => intro retries hr hsum; omega
  | succ fuel ih =>
    intro retries hr hsum
    have hc := h retries hr
    by_cases hb : retries + 1 > MAX_RETRIES
    · have hms : retries = MAX_RETRIES := by omega
      subst hms
      rw [retryLoop_conflict_stop conflictAt accountId MAX_RETRIES fuel hc hb]
      simp
    · have hrec := ih (retries + 1) (by omega) (by omega)
      rw [retryLoop_conflict_cont conflictAt accountId retries fuel hc hb, hrec]
      have hlist :
          (List.range (MAX_RETRIES - retries)).map (fun k => backoffDelay (retries + 1 + k)) =
            backoffDelay (retries + 1) ::
              (List.range (MAX_RETRIES - (retries + 1))).map
                (fun k => backoffDelay (retries + 1 + 1 + k)) := by
        have hm : MAX_RETRIES - retries = (MAX_RETRIES - (retries + 1)) + 1 := by omega
        rw [hm, List.range_succ_eq_map, List.map_cons, List.map_map]
        refine congrArg₂ _ (by simp) ?_
        apply List.map_congr_left
        intro k _
        simp only [Function.comp_apply]
        congr 1
        omega
      rw [hlist]

/-- A successful exit of the retry loop happens at the first
non-conflicting attempt, never past the retry bound, having slept once per
retry taken. -/
theorem retryLoop_ok (conflictAt : Nat → Bool) (accountId : String) :
    ∀ fuel retries r ds, retries ≤ MAX_RETRIES →
      retryLoop conflictAt accountId retries fuel = (.ok r, ds) →
      conflictAt r = false ∧ retries ≤ r ∧ r ≤ MAX_RETRIES ∧ ds.length = r - retries := by
  intro fuel
  induction fuel with
  | zero => intro retries r ds _ hrun; simp [retryLoop] at hrun
  | succ fuel ih =>
    intro retries r ds hr hrun
    by_cases hc : conflictAt retries
    · by_cases hb : retries + 1 > MAX_RETRIES
      · rw [retryLoop_conflict_stop conflictAt accountId retries fuel hc hb] at hrun
        simp at hrun
      · rw [retryLoop_conflict_cont conflictAt accountId retries fuel hc hb] at hrun
        cases hrec : retryLoop conflictAt accountId (retries + 1) fuel with
        | mk res dl =>
          rw [hrec] at hrun
          simp only [Prod.mk.injEq] at hrun
          obtain ⟨h1, h2⟩ := hrun
          subst h1
          obtain ⟨hcf, hle, hmax, hlen⟩ := ih (retries + 1) r dl (by omega) hrec
          subst h2
          refine ⟨hcf, by omega, hmax, ?_⟩
          simp only [List.length_cons, hlen]
          omega
    · rw [retryLoop_no_conflict conflictAt accountId retries fuel (by simpa using hc)] at hrun
      simp only [Prod.mk.injEq] at hrun
      obtain ⟨h1, h2⟩ := hrun
      injection h1 with h1
      subst h1
      subst h2
      exact ⟨by simpa using hc, le_refl _, hr, by simp⟩

/-- The catch-and-skip collection equals filtering the successes. -/
theorem collectAccountSummaries_eq_filterMap {α : Type}
    (update : String → Except LedgerError α) (ids : List String) :
    collectAccountSummaries update ids = ids.filterMap (fun i => (update i).toOption) := by
  induction ids with
  | nil => rfl
  | cons a rest ih =>
    cases hf : update a <;> simp [collectAccountSummaries, hf, ih, Except.toOption]
/-- Claim C7: the optimistic update loop performs at most `MAX_RETRIES`
(10) retries; the delay slept before the `k+1`-st retry is
`min(100 * 2^k, 1000)` milliseconds; when every admitted attempt
conflicts the account's update fails with `TooManyRetries` after the full
backoff schedule; a successful exit happens at the first non-conflicting
attempt within the bound; and a failed per-account update is caught and
excluded from the collected summaries without aborting the remaining
accounts. -/
theorem updateAccountWithRetry_bounded_backoff (conflictAt : Nat → Bool) (accountId : String) :
    ((updateAccountWithRetryOracle conflictAt accountId).2.length ≤ MAX_RETRIES) ∧
    (∀ k, k < (updateAccountWithRetryOracle conflictAt accountId).2.length →
      (updateAccountWithRetryOracle conflictAt accountId).2.getD k 0 = min (100 * 2 ^ k) 1000) ∧
    ((∀ r, r ≤ MAX_RETRIES → conflictAt r = true) →
      updateAccountWithRetryOracle conflictAt accountId =
        (.error (.tooManyRetries accountId),
         [100, 200, 400, 800, 1000, 1000, 1000, 1000, 1000, 1000])) ∧
    (∀ r ds, updateAccountWithRetryOracle conflictAt accountId = (.ok r, ds) →
      conflictAt r = false ∧ r ≤ MAX_RETRIES ∧ ds.length = r) ∧
    (∀ (update : String → Except LedgerError AccountReconciliationSummary) ids,
      collectAccountSummaries update ids = ids.filterMap (fun i => (update i).toOption)) := by
  refine ⟨?_, ?_, ?_, ?_, ?_⟩
  · simpa using retryLoop_delays_length conflictAt accountId (MAX_RETRIES + 1) 0
  · intro k hk
    have := retryLoop_delays_get conflictAt accountId (MAX_RETRIES + 1) 0 k hk
    rw [updateAccountWithRetryOracle, this, backoffDelay]
    simp
  · intro h
    rw [updateAccountWithRetryOracle,
      retryLoop_all_conflict conflictAt accountId h (MAX_RETRIES + 1) 0 (by decide) rfl]
    rfl
  · intro r ds hrun
    obtain ⟨hcf, _, hmax, hlen⟩ :=
      retryLoop_ok conflictAt accountId (MAX_RETRIES + 1) 0 r ds (by decide) hrun
    exact ⟨hcf, hmax, by omega⟩
  · exact collectAccountSummaries_eq_filterMap

/-- Per-account update outcome used by the C7 witness: account A fails,
every other account succeeds. -/
def c7Update (i : String) : Except LedgerError AccountReconciliationSummary :=
  if i = "A" then .error (.tooManyRetries "A") else .ok ⟨i, 0, 0, 0, 1, 0⟩

/-- Witness for C7: the always-conflicting oracle exhausts the bound with
the full backoff schedule; the fifth delay is already capped at 1000 ms;
an erroring account is dropped from the summaries while the next account
is still processed. -/
theorem updateAccountWithRetry_bounded_backoff_witness :
    updateAccountWithRetryOracle (fun _ => true) "A" =
      (.error (.tooManyRetries "A"), [100, 200, 400, 800, 1000, 1000, 1000, 1000, 1000, 1000]) ∧
    (updateAccountWithRetryOracle (fun _ => true) "A").2.getD 4 0 = 1000 ∧
    collectAccountSummaries c7Update ["A", "B"] = [⟨"B", 0, 0, 0, 1, 0⟩] := by
  have h := updateAccountWithRetry_bounded_backoff (fun _ => true) "A"
  exact ⟨h.2.2.1 (fun r _ => rfl), (h.2.1 4 (by decide)).trans (by decide),
    (h.2.2.2.2 c7Update ["A", "B"]).trans (by decide)⟩
/-- Membership of the first-occurrence deduplication is plain membership. -/
theorem mem_dedupFirst_foldl (x : String) :
    ∀ (xs acc : List String),
      (x ∈ xs.foldl (fun acc y => if y ∈ acc then acc else acc ++ [y]) acc) ↔
        x ∈ acc ∨ x ∈ xs := by
  intro xs
  induction xs with
  | nil => intro acc; simp
  | cons y ys ih =>
    intro acc
    by_cases hy : y ∈ acc
    · rw [List.foldl_cons, if_pos hy, ih]
      constructor
      · rintro (h | h)
        · exact Or.inl h
        · exact Or.inr (List.mem_cons_of_mem y h)
      · rintro (h | h)
        · exact Or.inl h
        · rcases List.mem_cons.mp h with rfl | h
          · exact Or.inl hy
          · exact Or.inr h
    · rw [List.foldl_cons, if_neg hy, ih]
      simp only [List.mem_append, List.mem_singleton, List.mem_cons]
      tauto

/-- `x ∈ dedupFirst xs` iff `x ∈ xs`. -/
theorem mem_dedupFirst (x : String) (xs : List String) : x ∈ dedupFirst xs ↔ x ∈ xs := by
  rw [dedupFirst, mem_dedupFirst_foldl]
  simp

/-- A transaction id is among the unreconciled ids exactly when some open
posting of the store carries it. -/
theorem mem_getUnreconciledTransactionIds (store : PostingStore) (txId : String) :
    txId ∈ getUnreconciledTransactionIds store ↔
      ∃ p ∈ store, p.reconciled_at = none ∧ p.transaction_id = txId := by
  rw [getUnreconciledTransactionIds, mem_dedupFirst, List.mem_map]
  constructor
  · rintro ⟨p, hp, rfl⟩
    rw [List.mem_filter] at hp
    exact ⟨p, hp.1, by simpa using hp.2, rfl⟩
  · rintro ⟨p, hp, hnone, rfl⟩
    exact ⟨p, List.mem_filter.mpr ⟨hp, by simpa using hnone⟩, rfl⟩

/-- The pointwise effect of the marking phase: a posting in a marked group
gets the run timestamp, all others stay as they are. -/
def markIf (ids : List String) (reconciledAt : Nat) (p : Posting) : Posting :=
  if p.transaction_id ∈ ids then { p with reconciled_at := some reconciledAt } else p

/-- Marking the groups one by one is the same as mapping `markIf` over the
store. -/
theorem foldl_reconcile_eq_map (reconciledAt : Nat) :
    ∀ (ids : List String) (store : PostingStore),
      ids.foldl (fun ps txId => reconcileTransactionGroup ps txId reconciledAt) store =
        store.map (markIf ids reconciledAt) := by
  intro ids
  induction ids with
  | nil =>
    intro store
    have h : ∀ p ∈ store, markIf [] reconciledAt p = id p := fun p _ => by simp [markIf]
    rw [List.foldl_nil, List.map_congr_left h, List.map_id]
  | cons t ts ih =>
    intro store
    rw [List.foldl_cons, ih, reconcileTransactionGroup, List.map_map]
    apply List.map_congr_left
    intro p _
    simp only [Function.comp_apply, markIf]
    by_cases hpt : p.transaction_id = t
    · simp only [hpt, if_pos rfl, List.mem_cons, true_or, if_pos]
      by_cases hts : t ∈ ts <;> simp [hts]
    · simp only [hpt, if_neg hpt, List.mem_cons]
      by_cases hts : p.transaction_id ∈ ts <;> simp [hts, hpt]
/-- An element of `savePosting store l` was in the store or is the saved
line. -/
theorem mem_savePosting (store : PostingStore) (l q : Posting)
    (h : q ∈ savePosting store l) : q ∈ store ∨ q = l := by
  rw [savePosting] at h
  by_cases hany : store.any (fun q => q.id = l.id)
  · rw [if_pos hany, List.mem_map] at h
    obtain ⟨r, hr, hq⟩ := h
    by_cases hid : r.id = l.id
    · rw [if_pos hid] at hq
      exact Or.inr hq.symm
    · rw [if_neg hid] at hq
      exact Or.inl (hq ▸ hr)
  · rw [if_neg hany, List.mem_append, List.mem_singleton] at h
    exact h

/-- An element of the batch-save result was in the store or is one of the
saved lines. -/
theorem mem_foldl_savePosting :
    ∀ (lines : List Posting) (store : PostingStore) (q : Posting),
      q ∈ lines.foldl savePosting store → q ∈ store ∨ q ∈ lines := by
  intro lines
  induction lines with
  | nil => intro store q h; exact Or.inl h
  | cons l ls ih =>
    intro store q h
    rw [List.foldl_cons] at h
    rcases ih (savePosting store l) q h with h' | h'
    · rcases mem_savePosting store l q h' with h'' | h''
      · exact Or.inl h''
      · exact Or.inr (h'' ▸ List.mem_cons_self l ls)
    · exact Or.inr (List.mem_cons_of_mem l h')

/-- Saving a line with a different id leaves a lookup unchanged. -/
theorem lookupPosting_savePosting_ne (store : PostingStore) (l : Posting) (i : String)
    (hne : l.id ≠ i) : lookupPosting (savePosting store l) i = lookupPosting store i := by
  rw [savePosting]
  by_cases hany : store.any (fun q => q.id = l.id)
  · rw [if_pos hany, lookupPosting, lookupPosting, List.find?_map]
    have hpred : ((fun p => decide (p.id = i)) ∘ fun q => if q.id = l.id then l else q) =
        (fun p => decide (p.id = i)) := by
      funext q
      by_cases hid : q.id = l.id
      · simp only [Function.comp_apply, if_pos hid]
        have h2 : ¬(q.id = i) := by rw [hid]; exact hne
        rw [decide_eq_false hne, decide_eq_false h2]
      · simp [Function.comp_apply, if_neg hid]
    rw [hpred]
    cases hf : store.find? (fun p => decide (p.id = i)) with
    | none => rfl
    | some q =>
      have hq : q.id = i := by simpa using List.find?_some hf
      have : (if q.id = l.id then l else q) = q := by
        rw [if_neg]
        rw [hq]
        exact fun h => hne h.symm
      simp [this]
  · rw [if_neg hany, lookupPosting, lookupPosting, List.find?_append]
    have : ([l].find? fun p => decide (p.id = i)) = none := by
      simp [List.find?, hne]
    rw [this]
    cases store.find? (fun p => decide (p.id = i)) <;> rfl

/-- Saving a batch whose line ids all differ from `i` leaves the lookup of
`i` unchanged. -/
theorem lookupPosting_foldl_savePosting :
    ∀ (lines : List Posting) (store : PostingStore) (i : String),
      (∀ l ∈ lines, l.id ≠ i) →
      lookupPosting (lines.foldl savePosting store) i = lookupPosting store i := by
  intro lines
  induction lines with
  | nil => intro store i _; rfl
  | cons l ls ih =>
    intro store i h
    rw [List.foldl_cons, ih (savePosting store l) i (fun x hx => h x (List.mem_cons_of_mem l hx)),
      lookupPosting_savePosting_ne store l i (h l (List.mem_cons_self l ls))]

/-- Lookup commutes with an id-preserving map of the store. -/
theorem lookupPosting_map (f : Posting → Posting) (hid : ∀ p, (f p).id = p.id)
    (store : PostingStore) (i : String) :
    lookupPosting (store.map f) i = (lookupPosting store i).map f := by
  have hpred : ((fun p => decide (p.id = i)) ∘ f) = (fun p => decide (p.id = i)) := by
    funext q
    simp [Function.comp_apply, hid q]
  rw [lookupPosting, lookupPosting, List.find?_map, hpred]
/-- Every built line belongs to the new group and is open. -/
theorem buildLines_mem (dto : TransactionDto) (now : Nat) (l : Posting)
    (hl : l ∈ buildLines dto now) :
    l.transaction_id = dto.id ∧ l.reconciled_at = none := by
  rw [buildLines, List.mem_map] at hl
  obtain ⟨e, _, rfl⟩ := hl
  exact ⟨rfl, rfl⟩

/-- The post-state of a creation call: unchanged on any error, otherwise
the batch is saved into a store whose group id was fresh. -/
theorem createTransaction_state_cases (s : LedgerState) (dto : TransactionDto) (now : Nat) :
    (createTransaction s dto now).2 = s ∨
    (findByTransactionId s.postings dto.id = [] ∧
      (createTransaction s dto now).2 =
        { s with postings := (buildLines dto now).foldl savePosting s.postings }) := by
  unfold createTransaction
  cases hv : validateTransactionBalance dto.entries none with
  | error e => exact Or.inl rfl
  | ok t =>
    cases hm : firstMissingAccount s.accounts dto.entries with
    | some m => exact Or.inl rfl
    | none =>
      by_cases hd : findByTransactionId s.postings dto.id = []
      · exact Or.inr ⟨hd, by simp [hd]⟩
      · exact Or.inl (by simp [hd])

/-- The post-state postings of a reconciliation run: unchanged unless the
integrity check passed, in which case every open group is marked with the
run timestamp. -/
theorem reconcileAll_postings_cases (s : LedgerState) (now : Nat) :
    (reconcileAll s now).2.postings = s.postings ∨
    (verifyTransactionIntegrity s.postings = none ∧
      (reconcileAll s now).2.postings =
        s.postings.map (markIf (getUnreconciledTransactionIds s.postings) now)) := by
  by_cases hl : s.lock
  · exact Or.inl (by simp [reconcileAll, hl])
  · cases hv : verifyTransactionIntegrity s.postings with
    | some tup =>
      obtain ⟨t, d, c⟩ := tup
      exact Or.inl (by simp [reconcileAll, hl, hv])
    | none =>
      refine Or.inr ⟨rfl, ?_⟩
      simp [reconcileAll, hl, hv, foldl_reconcile_eq_map]

/-- No reachable transaction group is partially reconciled: a group
containing an open posting is entirely open. -/
def GroupsUniform (store : PostingStore) : Prop :=
  ∀ p ∈ store, ∀ q ∈ store, p.transaction_id = q.transaction_id →
    p.reconciled_at = none → q.reconciled_at = none

/-- Every reachable state has uniform groups: creation only ever adds whole
open groups with a fresh id, and reconciliation flips whole groups. -/
theorem reachable_groupsUniform (s : LedgerState) (h : Reachable s) :
    GroupsUniform s.postings := by
  induction h with
  | start accounts => intro p hp; exact absurd hp (List.not_mem_nil p)
  | step s op hr ih =>
    cases op with
    | getBalance id => exact ih
    | create dto now =>
      show GroupsUniform (createTransaction s dto now).2.postings
      rcases createTransaction_state_cases s dto now with hcase | ⟨hdup, hcase⟩
      · rw [hcase]; exact ih
      · rw [hcase]
        intro p hp q hq htx hpnone
        rcases mem_foldl_savePosting _ _ p hp with hp' | hp' <;>
          rcases mem_foldl_savePosting _ _ q hq with hq' | hq'
        · exact ih p hp' q hq' htx hpnone
        · exact (buildLines_mem dto now q hq').2
        · exfalso
          have hptx := (buildLines_mem dto now p hp').1
          have hqmem : q ∈ findByTransactionId s.postings dto.id := by
            rw [findByTransactionId, List.mem_filter]
            exact ⟨hq', by simp [← htx, hptx]⟩
          rw [hdup] at hqmem
          exact absurd hqmem (List.not_mem_nil q)
        · exact (buildLines_mem dto now q hq').2
    | reconcile now =>
      show GroupsUniform (reconcileAll s now).2.postings
      rcases reconcileAll_postings_cases s now with hcase | ⟨hv, hcase⟩
      · rw [hcase]; exact ih
      · rw [hcase]
        intro p hp q hq htx hpnone
        rw [List.mem_map] at hp
        obtain ⟨p0, hp0, rfl⟩ := hp
        exfalso
        by_cases hin : p0.transaction_id ∈ getUnreconciledTransactionIds s.postings
        · rw [markIf, if_pos hin] at hpnone
          simp at hpnone
        · rw [markIf, if_neg hin] at hpnone
          exact hin ((mem_getUnreconciledTransactionIds s.postings p0.transaction_id).mpr
            ⟨p0, hp0, hpnone, rfl⟩)
/-- Claim C8 (amended): in every reachable state, once a posting's
`reconciled_at` is non-null no public operation changes that posting
again, **unless** the operation is a `createTransaction` call that reuses
the posting's line id (the store's save overwrites the entry keyed by
line id wholesale).  Reconciliation itself never touches a non-null
posting because no reachable group is partially reconciled. -/
theorem reconciled_at_monotonic_without_id_reuse (s : LedgerState) (op : Op) (i : String)
    (p : Posting) (t : Nat) (hreach : Reachable s)
    (hlook : lookupPosting s.postings i = some p) (hrec : p.reconciled_at = some t)
    (hnoreuse : ∀ dto now, op = .create dto now → ∀ e ∈ dto.entries, e.id ≠ i) :
    lookupPosting (applyOp s op).postings i = some p := by
  cases op with
  | getBalance id => exact hlook
  | create dto now =>
    show lookupPosting (createTransaction s dto now).2.postings i = some p
    rcases createTransaction_state_cases s dto now with hcase | ⟨hdup, hcase⟩
    · rw [hcase]; exact hlook
    · rw [hcase]
      have hids : ∀ l ∈ buildLines dto now, l.id ≠ i := by
        intro l hl
        rw [buildLines, List.mem_map] at hl
        obtain ⟨e, he, rfl⟩ := hl
        exact hnoreuse dto now rfl e he
      rw [lookupPosting_foldl_savePosting (buildLines dto now) s.postings i hids]
      exact hlook
  | reconcile now =>
    show lookupPosting (reconcileAll s now).2.postings i = some p
    rcases reconcileAll_postings_cases s now with hcase | ⟨hv, hcase⟩
    · rw [hcase]; exact hlook
    · rw [hcase,
        lookupPosting_map (markIf (getUnreconciledTransactionIds s.postings) now)
          (fun q => by rw [markIf]; split <;> rfl) s.postings i,
        hlook]
      have hnotin : p.transaction_id ∉ getUnreconciledTransactionIds s.postings := by
        intro hin
        obtain ⟨q, hq, hqnone, hqtx⟩ :=
          (mem_getUnreconciledTransactionIds s.postings p.transaction_id).mp hin
        have hpmem : p ∈ s.postings := List.mem_of_find?_eq_some hlook
        have hpnone := reachable_groupsUniform s hreach q hq p hpmem hqtx hqnone
        rw [hrec] at hpnone
        exact Option.noConfusion hpnone
      simp [markIf, hnotin]

/-- Initial state of the id-reuse trace: two accounts, no postings. -/
def c8Start : LedgerState := ⟨[acctDebitC, acctCreditD], [], false⟩

/-- First public operation: post group `g1` with lines `L1`, `L2`. -/
def c8OpPost : Op :=
  .create ⟨"g1", none, [⟨"L1", "C", 100, .debit⟩, ⟨"L2", "D", 100, .credit⟩]⟩ 1

/-- Second public operation: reconcile everything at time 5. -/
def c8OpReconcile : Op := .reconcile 5

/-- The reachable state with group `g1` posted and reconciled. -/
def c8Reconciled : LedgerState := applyOp (applyOp c8Start c8OpPost) c8OpReconcile

/-- Third public operation, reusing line id `L1` inside a fresh group
`g2`. -/
def c8OpReuse : Op :=
  .create ⟨"g2", none, [⟨"L1", "C", 50, .debit⟩, ⟨"L5", "D", 50, .credit⟩]⟩ 9

/-- A fresh-id sibling of `c8OpReuse` that does not collide with `L1`. -/
def c8OpFresh : Op :=
  .create ⟨"g2", none, [⟨"L6", "C", 50, .debit⟩, ⟨"L5", "D", 50, .credit⟩]⟩ 9

/-- The posting `L1` as stored after the reconciliation step. -/
def c8L1 : Posting := ⟨"L1", "C", 100, .debit, "g1", none, 1, some 5⟩

/-- The reconciled-and-reposted trace is reachable through public
operations. -/
theorem c8Reconciled_reachable : Reachable c8Reconciled :=
  Reachable.step _ c8OpReconcile (Reachable.step _ c8OpPost (Reachable.start _))

/-- Claim C8 counterexample: in the reachable state `c8Reconciled` the
posting stored under line id `L1` has `reconciled_at = some 5`, yet the
public creation call reusing line id `L1` leaves the store with
`reconciled_at = none` at that id — the claimed unconditional monotonicity
fails. -/
theorem reconciled_at_cleared_by_line_id_reuse :
    Reachable c8Reconciled ∧
    (lookupPosting c8Reconciled.postings "L1").map (fun p => p.reconciled_at) =
      some (some 5) ∧
    (lookupPosting (applyOp c8Reconciled c8OpReuse).postings "L1").map
      (fun p => p.reconciled_at) = some none :=
  ⟨Reachable.step _ c8OpReconcile (Reachable.step _ c8OpPost (Reachable.start _)),
   by decide, by decide⟩

/-- Witness for C8 (amended): applying a creation call with fresh line ids
to the reachable state `c8Reconciled` leaves the reconciled posting `L1`
untouched. -/
theorem reconciled_at_monotonic_without_id_reuse_witness :
    lookupPosting (applyOp c8Reconciled c8OpFresh).postings "L1" = some c8L1 := by
  apply reconciled_at_monotonic_without_id_reuse c8Reconciled c8OpFresh "L1" c8L1 5
    c8Reconciled_reachable (by decide) rfl
  intro dto now heq e he
  cases heq
  simp only [List.mem_cons, List.not_mem_nil, or_false] at he
  rcases he with rfl | rfl <;> decide
